import Mathlib

/-!
QuickContacts front end.

A shallow embedding of the three React components of the contact manager
(`App.jsx`, `ContactForm.jsx`, `ContactList.jsx`) and the properties of their
handlers.

Conventions of the embedding:

* component state (`useState`) is a structure; a handler is a function from the
  state it closes over, its arguments and the outcome of the one `fetch` it
  awaits, to the state after its setters ran and the requests it issued;
* the outcome of `await fetch(..)` followed by `await res.json()` is a
  `FetchResult`: the promise rejects, or a response arrives with a status and a
  body that parses or not; a body that parses has the shape the endpoint is
  documented to return, a contact or an array of contacts;
* strings the code only stores and compares are Lean strings; the platform
  function `String.prototype.toLowerCase` is a parameter of the definitions that
  call it.
-/

namespace QuickContacts

/-! ## Data model -/

/-- A contact record as the API returns it. -/
structure Contact where
  id : Nat
  name : String
  phone : String
  email : String
  created_at : String
deriving DecidableEq, Repr

/-- The object literal `{ name, phone, email }` the form hands to its callbacks. -/
structure Payload where
  name : String
  phone : String
  email : String
deriving DecidableEq, Repr

/-- The HTTP requests the root component issues, by endpoint:
`GET /contacts?..`, `POST /contacts`, `PUT /contacts/id`, `DELETE /contacts/id`. -/
inductive Request where
  | list (params : List (String × String))
  | post (body : Payload)
  | put (id : Nat) (body : Payload)
  | delete (id : Nat)
deriving DecidableEq, Repr

/-- What awaiting `fetch(..)` and then `res.json()` yields: `networkError` when
`fetch` rejects; otherwise a response with its status and its body, `none` when
`res.json()` rejects (the body is not JSON). -/
inductive FetchResult (α : Type) where
  | networkError
  | response (status : Nat) (body : Option α)
deriving DecidableEq, Repr

/-- The getter `Response.ok`: the status is in the range 200 to 299. -/
def ok (status : Nat) : Bool := decide (200 ≤ status) && decide (status ≤ 299)

/-- Truthiness of a JavaScript string: every string but the empty one. -/
def truthy (s : String) : Bool := decide (s ≠ "")

/-- The six cells the list request reads and the debounce effect depends on
(App.jsx lines 11 and 13 to 17; dependency array on line 42). -/
structure Filters where
  search : String
  filterName : String
  filterEmail : String
  filterPhone : String
  sortBy : String
  sortOrder : String
deriving DecidableEq, Repr

/-- The values the six cells mount with. -/
def Filters.initial : Filters :=
  { search := "", filterName := "", filterEmail := "", filterPhone := "",
    sortBy := "created_at", sortOrder := "desc" }

/-- The `useState` cells of `App` (App.jsx lines 8 to 17). -/
structure AppState extends Filters where
  contacts : List Contact
  editing : Option Contact
  message : String
  filtersOpen : Bool
deriving DecidableEq, Repr

/-- The state `App` mounts with. -/
def AppState.initial : AppState :=
  { Filters.initial with contacts := [], editing := none, message := "", filtersOpen := false }

/-! ## `URLSearchParams` -/

/-- The method `URLSearchParams.prototype.set` on the entry list: the first entry with the
key takes the value and the later ones with the key are dropped; without such an
entry the pair is appended. -/
def paramsSet : List (String × String) → String → String → List (String × String)
  | [], k, v => [(k, v)]
  | (k', v') :: rest, k, v =>
    if k' = k then (k, v) :: rest.filter (fun p => decide (p.1 ≠ k))
    else (k', v') :: paramsSet rest k v

/-- The method `URLSearchParams.prototype.toString`: the entries as `key=value` joined by
`&`, each side passed through the form-urlencoding `enc`. -/
def paramsToString (enc : String → String) (ps : List (String × String)) : String :=
  "&".intercalate (ps.map (fun p => enc p.1 ++ "=" ++ enc p.2))

/-- The entries `fetchContacts` builds (App.jsx lines 21 to 29). -/
def listParams (s : Filters) : List (String × String) :=
  let params : List (String × String) := []
  let params := paramsSet params "skip" "0"
  let params := paramsSet params "limit" "100"
  let params := paramsSet params "sort_by" s.sortBy
  let params := paramsSet params "sort_order" s.sortOrder
  let params := if truthy s.search then paramsSet params "search" s.search else params
  let params := if truthy s.filterName then paramsSet params "name" s.filterName else params
  let params := if truthy s.filterEmail then paramsSet params "email" s.filterEmail else params
  let params := if truthy s.filterPhone then paramsSet params "phone" s.filterPhone else params
  params

/-- The query string of the list request, `params.toString()` (line 30). -/
def queryString (enc : String → String) (s : Filters) : String :=
  paramsToString enc (listParams s)

/-! ## Handlers of `App` -/

/-- The function `fetchContacts` (App.jsx lines 19 to 36). The response status is not
inspected: whatever body parses is stored. -/
def fetchContacts (s : AppState) (r : FetchResult (List Contact)) : AppState × List Request :=
  let req := Request.list (listParams s.toFilters)
  match r with
  | .networkError => ({ s with message := "Failed to load contacts" }, [req])
  | .response _ none => ({ s with message := "Failed to load contacts" }, [req])
  | .response _ (some data) => ({ s with contacts := data }, [req])

/-- The handler `onCreate` (App.jsx lines 44 to 58). -/
def onCreate (s : AppState) (contact : Payload) (r : FetchResult Contact) :
    AppState × List Request :=
  let req := Request.post contact
  match r with
  | .networkError => ({ s with message := "Failed to add contact" }, [req])
  | .response status body =>
    if !ok status then ({ s with message := "Failed to add contact" }, [req])
    else match body with
      | none => ({ s with message := "Failed to add contact" }, [req])
      | some data => ({ s with contacts := data :: s.contacts, message := "Contact added" }, [req])

/-- The handler `onUpdate` (App.jsx lines 60 to 75). -/
def onUpdate (s : AppState) (id : Nat) (updates : Payload) (r : FetchResult Contact) :
    AppState × List Request :=
  let req := Request.put id updates
  match r with
  | .networkError => ({ s with message := "Update failed" }, [req])
  | .response status body =>
    if !ok status then ({ s with message := "Update failed" }, [req])
    else match body with
      | none => ({ s with message := "Update failed" }, [req])
      | some updated =>
        ({ s with contacts := s.contacts.map (fun c => if c.id = id then updated else c),
                  editing := none,
                  message := "Contact updated" }, [req])

/-- The handler `onDelete` (App.jsx lines 77 to 90); `confirmed` is what `confirm(..)`
returned. The body of the response is never read. -/
def onDelete {α : Type} (s : AppState) (id : Nat) (confirmed : Bool) (r : FetchResult α) :
    AppState × List Request :=
  if !confirmed then (s, [])
  else
    let req := Request.delete id
    match r with
    | .networkError => ({ s with message := "Delete error" }, [req])
    | .response status _ =>
      if status = 204 then
        ({ s with contacts := s.contacts.filter (fun c => decide (c.id ≠ id)),
                  message := "Contact deleted" }, [req])
      else ({ s with message := "Delete failed" }, [req])

/-! ## `ContactList` -/

/-- The ids the delete buttons of `ContactList` call `onDelete` with
(ContactList.jsx lines 8 and 18): the id of every contact of the array it
renders, in order. `App` renders it with its own `contacts` and `onDelete`
(App.jsx line 125), so these are the ids that handler receives. -/
def deleteIds (contacts : List Contact) : List Nat := contacts.map (fun c => c.id)

/-! ## `ContactForm` -/

/-- White space and line terminators of ECMAScript, the characters
`String.prototype.trim` strips. -/
def isWhiteSpace (c : Char) : Bool :=
  let n := c.toNat
  n == 0x09 || n == 0x0A || n == 0x0B || n == 0x0C || n == 0x0D || n == 0x20 || n == 0xA0 ||
  n == 0x1680 || (decide (0x2000 ≤ n) && decide (n ≤ 0x200A)) || n == 0x2028 || n == 0x2029 ||
  n == 0x202F || n == 0x205F || n == 0x3000 || n == 0xFEFF

/-- The method `String.prototype.trim`: white space removed from both ends. -/
def trim (s : String) : String :=
  ⟨((s.data.dropWhile isWhiteSpace).reverse.dropWhile isWhiteSpace).reverse⟩

/-- The `useState` cells of `ContactForm` (ContactForm.jsx lines 4 to 7). -/
structure FormState where
  name : String
  phone : String
  email : String
  knownNumber : String
deriving DecidableEq, Repr

/-- The props of `ContactForm` the handlers read; `onUpdate` tells whether that
callback prop is supplied (the test `editing && onUpdate` on line 29). -/
structure FormProps where
  editing : Option Contact
  onUpdate : Bool
  contacts : List Contact
deriving DecidableEq, Repr

/-- A call of one of the two callback props, with its arguments. -/
inductive Call where
  | onUpdate (id : Nat) (payload : Payload)
  | onCreate (payload : Payload)
deriving DecidableEq, Repr

/-- The value the second effect of the form stores in `knownNumber`
(ContactForm.jsx lines 19 to 24), for the `toLowerCase` of the platform. -/
def knownNumber (toLowerCase : String → String) (contacts : List Contact) (name : String) :
    String :=
  let n := toLowerCase (trim name)
  if !truthy n then ""
  else
    match contacts.find? (fun c => decide (toLowerCase c.name = n)) with
    | some m => m.phone
    | none => ""

/-- The handler `handleSubmit` (ContactForm.jsx lines 26 to 35): the fields after it ran and
the callback calls it made, in order. -/
def handleSubmit (p : FormProps) (f : FormState) : FormState × List Call :=
  let payload : Payload := { name := f.name, phone := f.phone, email := f.email }
  match p.editing, p.onUpdate with
  | some e, true => (f, [Call.onUpdate e.id payload])
  | _, _ => ({ f with name := "", phone := "", email := "" }, [Call.onCreate payload])

/-- The props `App` renders the form with (App.jsx line 123): `onUpdate` is
always passed. -/
def formProps (s : AppState) : FormProps :=
  { editing := s.editing, onUpdate := true, contacts := s.contacts }

/-- Lower-casing of the letters A to Z, the other characters kept: what
`toLowerCase` does on strings without further cased letters. -/
def asciiLower (s : String) : String := ⟨s.data.map Char.toLower⟩

/-! ## The debounced fetch effect -/

/-- The setter a toolbar input calls (App.jsx lines 100 and 108 to 117). -/
inductive Field where
  | search | filterName | filterEmail | filterPhone | sortBy | sortOrder
deriving DecidableEq, Repr

/-- The cells after `setSearch(v)`, `setFilterName(v)`, and so on. -/
def Filters.set (f : Filters) : Field → String → Filters
  | .search, v => { f with search := v }
  | .filterName, v => { f with filterName := v }
  | .filterEmail, v => { f with filterEmail := v }
  | .filterPhone, v => { f with filterPhone := v }
  | .sortBy, v => { f with sortBy := v }
  | .sortOrder, v => { f with sortOrder := v }

/-- An entry of the timer table of the browser: the handle `setTimeout`
returned, the time it is due (ms since mount) and the render whose
`fetchContacts` its callback closes over, given by the six cells it reads. -/
structure Timer where
  id : Nat
  due : Nat
  closure : Filters
deriving DecidableEq, Repr

/-- The state the two effects of `App` act on (App.jsx lines 38 to 42): the
clock, the six cells, the active timers, the next timer handle, the handle the
cleanup function kept by React closes over, and the list requests issued so far
with the time and the cells each was built from. -/
structure EffectState where
  now : Nat
  deps : Filters
  timers : List Timer
  nextId : Nat
  cleanup : Option Nat
  fetched : List (Nat × Filters)
deriving DecidableEq, Repr

/-- The call `setTimeout(callback, delay)` made from the render with the current cells:
a new entry, and its handle. -/
def setTimeout (s : EffectState) (delay : Nat) : EffectState × Nat :=
  ({ s with timers := s.timers ++ [{ id := s.nextId, due := s.now + delay, closure := s.deps }],
            nextId := s.nextId + 1 }, s.nextId)

/-- The call `clearTimeout(t)`: the entry with the handle is dropped, if it is still there. -/
def clearTimeout (s : EffectState) (t : Nat) : EffectState :=
  { s with timers := s.timers.filter (fun e => decide (e.id ≠ t)) }

/-- The body of the second effect (lines 40 and 41): schedule the fetch in
250 ms and return the cleanup that clears this timer. -/
def runEffect (s : EffectState) : EffectState :=
  let (s1, t) := setTimeout s 250
  { s1 with cleanup := some t }

/-- React runs the cleanup of the previous run of the effect. -/
def runCleanup (s : EffectState) : EffectState :=
  match s.cleanup with
  | some t => clearTimeout s t
  | none => s

/-- Mounting `App`: the first effect (line 38) calls `fetchContacts` at once,
the second schedules its timer. -/
def mount : EffectState :=
  runEffect { now := 0, deps := Filters.initial, timers := [], nextId := 0, cleanup := none,
              fetched := [(0, Filters.initial)] }

/-- An `onChange` of a toolbar input calling its setter with `v`. When the value
is the one the cell holds nothing is rendered anew; otherwise a dependency of
the effect changed, so its previous cleanup runs and then the effect itself. -/
def input (s : EffectState) (fld : Field) (v : String) : EffectState :=
  if s.deps.set fld v = s.deps then s
  else runEffect (runCleanup { s with deps := s.deps.set fld v })

/-- A timer expires: its callback calls `fetchContacts` of its render, and the
entry leaves the table. -/
def fire (s : EffectState) (t : Timer) : EffectState :=
  { s with timers := s.timers.filter (fun e => decide (e.id ≠ t.id)),
           fetched := s.fetched ++ [(t.due, t.closure)] }

/-- Time passes for `ms` milliseconds without input: the timers due by then
expire, in the order they were set. -/
def elapse (s : EffectState) (ms : Nat) : EffectState :=
  let s1 := (s.timers.filter (fun t => decide (t.due ≤ s.now + ms))).foldl fire s
  { s1 with now := s.now + ms }

/-- The events of the step relation. -/
inductive Event where
  | input (fld : Field) (v : String)
  | elapse (ms : Nat)
deriving DecidableEq, Repr

/-- One step. -/
def step (s : EffectState) : Event → EffectState
  | .input fld v => input s fld v
  | .elapse ms => elapse s ms

/-- The state after a sequence of events. -/
def run (s : EffectState) (es : List Event) : EffectState := es.foldl step s

/-- The states the mounted component can be in. -/
def Reachable (s : EffectState) : Prop := ∃ es : List Event, s = run mount es

/-- A burst of filter changes: each sets a field and is followed by a pause. -/
def burstEvents : List (Field × String × Nat) → List Event
  | [] => []
  | (fld, v, ms) :: rest => Event.input fld v :: Event.elapse ms :: burstEvents rest

/-- The cells after the setter calls of a burst. -/
def setAll (f : Filters) : List (Field × String × Nat) → Filters
  | [] => f
  | (fld, v, _) :: rest => setAll (f.set fld v) rest

/-- Every setter call of the burst changes the value its cell holds. -/
def AllChange (f : Filters) : List (Field × String × Nat) → Prop
  | [] => True
  | (fld, v, _) :: rest => f.set fld v ≠ f ∧ AllChange (f.set fld v) rest

instance decAllChange : (f : Filters) → (cs : List (Field × String × Nat)) →
    Decidable (AllChange f cs)
  | _, [] => isTrue trivial
  | f, (fld, v, _) :: rest =>
    have := decAllChange (f.set fld v) rest
    inferInstanceAs (Decidable (f.set fld v ≠ f ∧ AllChange (f.set fld v) rest))

/-- The invariant of the effect: at most one timer is active, and it is the one
the kept cleanup clears. -/
def Inv (s : EffectState) : Prop :=
  s.timers.length ≤ 1 ∧ ∀ t ∈ s.timers, s.cleanup = some t.id

/-- The pauses of a burst, summed. -/
def totalPause (cs : List (Field × String × Nat)) : Nat := (cs.map (fun c => c.2.2)).sum

/-! ## Sample data -/

/-- The contact of the specification's example. -/
def ann : Contact := { id := 1, name := "Ann", phone := "111", email := "a@x.com", created_at := "" }

/-- A second contact. -/
def bo : Contact := { id := 2, name := "Bo", phone := "222", email := "b@x.com", created_at := "" }

/-- The second contact as the server returns it after a rename. -/
def bob : Contact := { bo with name := "Bob" }

/-- The fields of the second contact, as the form submits them. -/
def boPayload : Payload := { name := "Bo", phone := "222", email := "b@x.com" }

/-- A root state with the second contact loaded into the form. -/
def editingState : AppState := { AppState.initial with contacts := [ann, bo], editing := some bo }

/-- The fields of the form while "Bo" is being typed over. -/
def sampleForm : FormState := { name := "Bob", phone := "222", email := "b@x.com", knownNumber := "" }

/-- A root state showing the two sample contacts. -/
def sampleState : AppState := { AppState.initial with contacts := [ann, bo] }

/-! ## The mutation handlers of `App` -/

/-- The state and request of a successful update, in one equation. -/
theorem onUpdate_ok (s : AppState) (id : Nat) (updates : Payload) (status : Nat)
    (updated : Contact) (h : 200 ≤ status ∧ status ≤ 299) :
    onUpdate s id updates (.response status (some updated)) =
      ({ s with contacts := s.contacts.map (fun c => if c.id = id then updated else c),
                editing := none, message := "Contact updated" }, [Request.put id updates]) := by
  simp [onUpdate, ok, h.1, h.2]

/-- C1: after a PUT answered with a 2xx status and a record, `onUpdate` leaves a
list of the same length in which every position holds the returned record when
the contact there has the given id and the original contact otherwise; the
editing target is none and the message is "Contact updated". -/
theorem onUpdate_success (s : AppState) (id : Nat) (updates : Payload) (status : Nat)
    (updated : Contact) (h : 200 ≤ status ∧ status ≤ 299) :
    (onUpdate s id updates (.response status (some updated))).1.contacts.length
        = s.contacts.length ∧
    (∀ i : Nat, (onUpdate s id updates (.response status (some updated))).1.contacts[i]?
        = (s.contacts[i]?).map (fun c => if c.id = id then updated else c)) ∧
    (onUpdate s id updates (.response status (some updated))).1.editing = none ∧
    (onUpdate s id updates (.response status (some updated))).1.message = "Contact updated" := by
  rw [onUpdate_ok s id updates status updated h]
  refine ⟨by simp, fun i => by simp, rfl, rfl⟩

/-- C1 at the sample state: the PUT for contact 2 answered 200 with the renamed
record. -/
theorem onUpdate_success_witness :
    (200 ≤ 200 ∧ 200 ≤ 299) ∧
    ((onUpdate sampleState 2 boPayload (.response 200 (some bob))).1.contacts.length
        = sampleState.contacts.length ∧
     (∀ i : Nat, (onUpdate sampleState 2 boPayload (.response 200 (some bob))).1.contacts[i]?
        = (sampleState.contacts[i]?).map (fun c => if c.id = 2 then bob else c)) ∧
     (onUpdate sampleState 2 boPayload (.response 200 (some bob))).1.editing = none ∧
     (onUpdate sampleState 2 boPayload (.response 200 (some bob))).1.message
        = "Contact updated") :=
  ⟨by decide, onUpdate_success sampleState 2 boPayload 200 bob (by decide)⟩

/-- The state and request of a successful create, in one equation. -/
theorem onCreate_ok (s : AppState) (contact : Payload) (status : Nat) (data : Contact)
    (h : 200 ≤ status ∧ status ≤ 299) :
    onCreate s contact (.response status (some data)) =
      ({ s with contacts := data :: s.contacts, message := "Contact added" },
       [Request.post contact]) := by
  simp [onCreate, ok, h.1, h.2]

/-- C2: after a POST answered with a 2xx status and a record, `onCreate` leaves
the list whose head is the returned record and whose tail is the previous list,
one longer than before, and the message "Contact added". -/
theorem onCreate_success (s : AppState) (contact : Payload) (status : Nat) (data : Contact)
    (h : 200 ≤ status ∧ status ≤ 299) :
    (onCreate s contact (.response status (some data))).1.contacts = data :: s.contacts ∧
    (onCreate s contact (.response status (some data))).1.contacts.length
        = s.contacts.length + 1 ∧
    (onCreate s contact (.response status (some data))).1.message = "Contact added" := by
  rw [onCreate_ok s contact status data h]
  exact ⟨rfl, rfl, rfl⟩

/-- C2 at the sample state: the POST answered 201 with a new record. -/
theorem onCreate_success_witness :
    (200 ≤ 201 ∧ 201 ≤ 299) ∧
    ((onCreate sampleState boPayload (.response 201 (some bob))).1.contacts
        = bob :: sampleState.contacts ∧
     (onCreate sampleState boPayload (.response 201 (some bob))).1.contacts.length
        = sampleState.contacts.length + 1 ∧
     (onCreate sampleState boPayload (.response 201 (some bob))).1.message = "Contact added") :=
  ⟨by decide, onCreate_success sampleState boPayload 201 bob (by decide)⟩

/-- When a confirmed `onDelete` leaves a list other than the one it started
from: the status is 204 and some contact has the id. -/
theorem onDelete_changes_iff {α : Type} (s : AppState) (id : Nat) (r : FetchResult α) :
    (onDelete s id true r).1.contacts ≠ s.contacts ↔
      (∃ body, r = .response 204 body) ∧ ∃ c ∈ s.contacts, c.id = id := by
  cases r with
  | networkError => simp [onDelete]
  | response status body =>
    by_cases h : status = 204
    · subst h
      simp [onDelete, List.filter_eq_self]
    · simp [onDelete, h]

/-- C3: for a confirmed `onDelete`, on status 204 the list becomes the contacts
whose id differs from the given one, in their order, with message
"Contact deleted"; on any other status, other 2xx included, the state is
unchanged but for the message "Delete failed"; on a network error it is
unchanged but for the message "Delete error"; and for an id the list component
can pass, that of a contact on display, the list changes if and only if the
status is 204. -/
theorem onDelete_confirmed {α : Type} (s : AppState) (id : Nat) :
    (∀ body : Option α, (onDelete s id true (.response 204 body)).1 =
        { s with contacts := s.contacts.filter (fun c => decide (c.id ≠ id)),
                 message := "Contact deleted" }) ∧
    (∀ (status : Nat) (body : Option α), status ≠ 204 →
        (onDelete s id true (.response status body)).1 = { s with message := "Delete failed" }) ∧
    (onDelete s id true (FetchResult.networkError : FetchResult α)).1
        = { s with message := "Delete error" } ∧
    (id ∈ deleteIds s.contacts →
      ∀ r : FetchResult α, (onDelete s id true r).1.contacts ≠ s.contacts ↔
        ∃ body, r = .response 204 body) := by
  refine ⟨fun body => by simp [onDelete], fun status body h => by simp [onDelete, h],
    by simp [onDelete], fun hid r => ?_⟩
  have hc : ∃ c ∈ s.contacts, c.id = id := by
    simpa [deleteIds] using hid
  rw [onDelete_changes_iff s id r]
  exact ⟨fun h => h.1, fun h => ⟨h, hc⟩⟩

/-- C3 at the sample state, for the delete button of the first contact: the
DELETE answered 204 changes the list, the DELETE answered 200 does not. -/
theorem onDelete_confirmed_witness :
    1 ∈ deleteIds sampleState.contacts ∧
    ((onDelete sampleState 1 true (FetchResult.response 204 (none : Option Unit))).1.contacts
        ≠ sampleState.contacts ↔
      ∃ body, FetchResult.response 204 (none : Option Unit) = .response 204 body) ∧
    ((onDelete sampleState 1 true (FetchResult.response 200 (none : Option Unit))).1.contacts
        ≠ sampleState.contacts ↔
      ∃ body, FetchResult.response 200 (none : Option Unit) = .response 204 body) :=
  ⟨by decide,
   (onDelete_confirmed sampleState 1).2.2.2 (by decide) (.response 204 none),
   (onDelete_confirmed sampleState 1).2.2.2 (by decide) (.response 200 none)⟩

/-- C4: with the confirmation declined `onDelete` returns the root state as it
was and issues no request, whatever the server would have answered. -/
theorem onDelete_declined {α : Type} (s : AppState) (id : Nat) (r : FetchResult α) :
    onDelete s id false r = (s, []) := by
  simp [onDelete]

/-- What `fetchContacts` does when a promise rejects: after a network error or
a body that does not parse, the list is kept and the message is set. -/
theorem fetchContacts_rejected (s : AppState) :
    (fetchContacts s .networkError).1 = { s with message := "Failed to load contacts" } ∧
    ∀ status : Nat, (fetchContacts s (.response status none)).1
      = { s with message := "Failed to load contacts" } := by
  exact ⟨rfl, fun _ => rfl⟩

/-- C5, the case the code misses: the list request is answered 500 with a body
that parses. `fetchContacts` stores the body as the contact list, so the two
displayed contacts are gone, and the message stays empty instead of
"Failed to load contacts". -/
theorem fetchContacts_non2xx_replaces_list :
    ok 500 = false ∧
    (fetchContacts sampleState (.response 500 (some []))).1.contacts = [] ∧
    (fetchContacts sampleState (.response 500 (some []))).1.contacts ≠ sampleState.contacts ∧
    (fetchContacts sampleState (.response 500 (some []))).1.message = "" ∧
    (fetchContacts sampleState (.response 500 (some []))).1.message
      ≠ "Failed to load contacts" := by
  decide

/-- C6: a create or an update that fails, by a network error, a status outside
200 to 299 or a body that does not parse, leaves the root state as it was (the
contact list and the editing target among the rest) but for the message, which
is "Failed to add contact" for create and "Update failed" for update. -/
theorem create_update_failure (s : AppState) (contact : Payload) (id : Nat)
    (updates : Payload) :
    ((onCreate s contact .networkError).1 = { s with message := "Failed to add contact" } ∧
     (∀ (status : Nat) (body : Option Contact), ¬ (200 ≤ status ∧ status ≤ 299) →
        (onCreate s contact (.response status body)).1
          = { s with message := "Failed to add contact" }) ∧
     (∀ status : Nat, (onCreate s contact (.response status none)).1
          = { s with message := "Failed to add contact" })) ∧
    ((onUpdate s id updates .networkError).1 = { s with message := "Update failed" } ∧
     (∀ (status : Nat) (body : Option Contact), ¬ (200 ≤ status ∧ status ≤ 299) →
        (onUpdate s id updates (.response status body)).1
          = { s with message := "Update failed" }) ∧
     (∀ status : Nat, (onUpdate s id updates (.response status none)).1
          = { s with message := "Update failed" })) ∧
    (∀ m : String, ({ s with message := m } : AppState).contacts = s.contacts ∧
        ({ s with message := m } : AppState).editing = s.editing) := by
  have hok : ∀ status : Nat, ¬ (200 ≤ status ∧ status ≤ 299) → ok status = false := by
    intro status h
    simp only [ok, Bool.and_eq_false_iff, decide_eq_false_iff_not]
    by_cases h1 : 200 ≤ status
    · exact Or.inr (fun h2 => h ⟨h1, h2⟩)
    · exact Or.inl h1
  refine ⟨⟨rfl, fun status body h => ?_, fun status => ?_⟩,
    ⟨rfl, fun status body h => ?_, fun status => ?_⟩, fun m => ⟨rfl, rfl⟩⟩
  · simp [onCreate, hok status h]
  · cases hs : ok status <;> simp [onCreate, hs]
  · simp [onUpdate, hok status h]
  · cases hs : ok status <;> simp [onUpdate, hs]

/-- C6 at the sample state: a create answered 422 and an update answered 404. -/
theorem create_update_failure_witness :
    (¬ (200 ≤ 422 ∧ 422 ≤ 299) ∧
      (onCreate sampleState boPayload (.response 422 (some bob))).1
        = { sampleState with message := "Failed to add contact" }) ∧
    (¬ (200 ≤ 404 ∧ 404 ≤ 299) ∧
      (onUpdate sampleState 2 boPayload (.response 404 (some bob))).1
        = { sampleState with message := "Update failed" }) :=
  ⟨⟨by decide, (create_update_failure sampleState boPayload 2 boPayload).1.2.1 422 (some bob)
      (by decide)⟩,
   ⟨by decide, (create_update_failure sampleState boPayload 2 boPayload).2.1.2.1 404 (some bob)
      (by decide)⟩⟩

/-! ## The list request -/

/-- The entries of the list request, as one list. -/
theorem listParams_eq (s : Filters) :
    listParams s =
      [("skip", "0"), ("limit", "100"), ("sort_by", s.sortBy), ("sort_order", s.sortOrder)]
        ++ (if s.search = "" then [] else [("search", s.search)])
        ++ (if s.filterName = "" then [] else [("name", s.filterName)])
        ++ (if s.filterEmail = "" then [] else [("email", s.filterEmail)])
        ++ (if s.filterPhone = "" then [] else [("phone", s.filterPhone)]) := by
  unfold listParams
  by_cases h1 : s.search = "" <;> by_cases h2 : s.filterName = "" <;>
    by_cases h3 : s.filterEmail = "" <;> by_cases h4 : s.filterPhone = "" <;>
    simp [paramsSet, truthy, h1, h2, h3, h4]

/-- C10: the list request carries `skip=0`, `limit=100`, `sort_by` and
`sort_order` with the current sort values always, each of `search`, `name`,
`email` and `phone` exactly when its filter string is not empty and then with
that string as value, every key at most once and no other key; the request
`fetchContacts` issues has these entries and its query string is their
serialisation. -/
theorem listParams_spec (s : Filters) :
    (listParams s =
      [("skip", "0"), ("limit", "100"), ("sort_by", s.sortBy), ("sort_order", s.sortOrder)]
        ++ (if s.search = "" then [] else [("search", s.search)])
        ++ (if s.filterName = "" then [] else [("name", s.filterName)])
        ++ (if s.filterEmail = "" then [] else [("email", s.filterEmail)])
        ++ (if s.filterPhone = "" then [] else [("phone", s.filterPhone)])) ∧
    (∀ k v : String, (k, v) ∈ listParams s ↔
      (k = "skip" ∧ v = "0") ∨ (k = "limit" ∧ v = "100") ∨
      (k = "sort_by" ∧ v = s.sortBy) ∨ (k = "sort_order" ∧ v = s.sortOrder) ∨
      (k = "search" ∧ v = s.search ∧ s.search ≠ "") ∨
      (k = "name" ∧ v = s.filterName ∧ s.filterName ≠ "") ∨
      (k = "email" ∧ v = s.filterEmail ∧ s.filterEmail ≠ "") ∨
      (k = "phone" ∧ v = s.filterPhone ∧ s.filterPhone ≠ "")) ∧
    ((listParams s).map Prod.fst).Nodup ∧
    (∀ (a : AppState) (r : FetchResult (List Contact)), a.toFilters = s →
      (fetchContacts a r).2 = [Request.list (listParams s)]) ∧
    (∀ enc : String → String, queryString enc s =
      "&".intercalate ((listParams s).map (fun p => enc p.1 ++ "=" ++ enc p.2))) := by
  refine ⟨listParams_eq s, fun k v => ?_, ?_, fun a r h => ?_, fun enc => rfl⟩
  · rw [listParams_eq]
    by_cases h1 : s.search = "" <;> by_cases h2 : s.filterName = "" <;>
      by_cases h3 : s.filterEmail = "" <;> by_cases h4 : s.filterPhone = "" <;>
      simp [h1, h2, h3, h4]
  · rw [listParams_eq]
    by_cases h1 : s.search = "" <;> by_cases h2 : s.filterName = "" <;>
      by_cases h3 : s.filterEmail = "" <;> by_cases h4 : s.filterPhone = "" <;>
      simp [h1, h2, h3, h4]
  · subst h
    cases r with
    | networkError => rfl
    | response status body => cases body <;> rfl

/-- C10 at the sample state, which has no filter set: the request of
`fetchContacts` carries the four fixed entries. -/
theorem listParams_spec_witness :
    sampleState.toFilters = Filters.initial ∧
    (fetchContacts sampleState .networkError).2 = [Request.list (listParams Filters.initial)] :=
  ⟨rfl, (listParams_spec Filters.initial).2.2.2.1 sampleState .networkError rfl⟩

/-! ## The form -/

/-- C7 as stated fails: with the list of the example and "ann " typed (a space
after the name), no contact's name equals the typed name ignoring case, and the
hint is "111", not empty. -/
theorem knownNumber_trim_counterexample :
    ¬ ((∀ c ∈ [ann], asciiLower c.name ≠ asciiLower "ann ") →
        knownNumber asciiLower [ann] "ann " = "") := by
  decide

/-- C7, amended: let `n` be the typed name with the white space at its ends
removed, in lower case. When `n` is empty the hint is empty. Otherwise the hint
is the phone of the first contact in list order whose name in lower case is `n`
(the contact's name is not trimmed), and it is empty when no contact's name in
lower case is `n`. -/
theorem knownNumber_spec (toLowerCase : String → String) (contacts : List Contact)
    (name : String) :
    (toLowerCase (trim name) = "" → knownNumber toLowerCase contacts name = "") ∧
    (∀ (pre : List Contact) (m : Contact) (post : List Contact),
        contacts = pre ++ m :: post → toLowerCase (trim name) ≠ "" →
        (∀ c ∈ pre, toLowerCase c.name ≠ toLowerCase (trim name)) →
        toLowerCase m.name = toLowerCase (trim name) →
        knownNumber toLowerCase contacts name = m.phone) ∧
    ((∀ c ∈ contacts, toLowerCase c.name ≠ toLowerCase (trim name)) →
        knownNumber toLowerCase contacts name = "") := by
  refine ⟨fun h => by simp [knownNumber, truthy, h], ?_, fun h => ?_⟩
  · intro pre m post hc hn hpre hm
    have hfind : contacts.find? (fun c => decide (toLowerCase c.name = toLowerCase (trim name)))
        = some m := by
      subst hc
      induction pre with
      | nil => simp [List.find?, hm]
      | cons a pre ih =>
        have ha : toLowerCase a.name ≠ toLowerCase (trim name) := hpre a (List.mem_cons_self _ _)
        simp only [List.cons_append, List.find?, ha, decide_False]
        exact ih (fun c hcm => hpre c (List.mem_cons_of_mem _ hcm))
    simp [knownNumber, truthy, hn, hfind]
  · have hfind : contacts.find? (fun c => decide (toLowerCase c.name = toLowerCase (trim name)))
        = none := by
      rw [List.find?_eq_none]
      intro c hc
      simpa using h c hc
    by_cases hn : toLowerCase (trim name) = ""
    · simp [knownNumber, truthy, hn]
    · simp [knownNumber, truthy, hn, hfind]

/-- C7 amended, on a list where the second contact matches: " BO " typed gives
the phone of Bo. -/
theorem knownNumber_spec_witness :
    ([ann, bo] = [ann] ++ bo :: [] ∧ asciiLower (trim " BO ") ≠ "" ∧
      (∀ c ∈ [ann], asciiLower c.name ≠ asciiLower (trim " BO ")) ∧
      asciiLower bo.name = asciiLower (trim " BO ")) ∧
    knownNumber asciiLower [ann, bo] " BO " = bo.phone :=
  ⟨by decide, (knownNumber_spec asciiLower [ann, bo] " BO ").2.1 [ann] bo [] (by decide)
      (by decide) (by decide) (by decide)⟩

/-- C8: inside `App`, `handleSubmit` with an editing target calls `onUpdate`
once, with the id of the target and the payload of the current fields, calls
`onCreate` not at all and leaves the fields as they are; without an editing
target it calls `onCreate` once with that payload, `onUpdate` not at all, and
sets the three fields to the empty string. The handler does not await the
callback, so what it does to the fields is the same whether the request then
succeeds or fails. -/
theorem handleSubmit_spec (s : AppState) (f : FormState) :
    (∀ e : Contact, s.editing = some e →
      handleSubmit (formProps s) f
        = (f, [Call.onUpdate e.id { name := f.name, phone := f.phone, email := f.email }])) ∧
    (s.editing = none →
      handleSubmit (formProps s) f
        = ({ name := "", phone := "", email := "", knownNumber := f.knownNumber },
           [Call.onCreate { name := f.name, phone := f.phone, email := f.email }])) := by
  refine ⟨fun e he => ?_, fun he => ?_⟩
  · simp [handleSubmit, formProps, he]
  · simp [handleSubmit, formProps, he]

/-- C8 at a state editing the second contact. -/
theorem handleSubmit_spec_witness :
    editingState.editing = some bo ∧
    handleSubmit (formProps editingState) sampleForm
      = (sampleForm, [Call.onUpdate bo.id
          { name := sampleForm.name, phone := sampleForm.phone, email := sampleForm.email }]) :=
  ⟨rfl, (handleSubmit_spec editingState sampleForm).1 bo rfl⟩

/-- The test on line 29 also asks for the `onUpdate` prop: a form rendered with
an editing target and without that prop submits as a create. -/
theorem handleSubmit_without_onUpdate (e : Contact) (cs : List Contact) (f : FormState) :
    handleSubmit { editing := some e, onUpdate := false, contacts := cs } f
      = ({ f with name := "", phone := "", email := "" },
         [Call.onCreate { name := f.name, phone := f.phone, email := f.email }]) := by
  simp [handleSubmit]

/-! ## The debounce -/

/-- Mounting leaves the invariant in place. -/
theorem inv_mount : Inv mount := by
  simp [Inv, mount, runEffect, setTimeout]

/-- A setter call that changes its cell, from a state with the invariant: the
old timer is gone and the only timer is the new one. -/
theorem input_change (s : EffectState) (fld : Field) (v : String) (hs : Inv s)
    (hv : s.deps.set fld v ≠ s.deps) :
    input s fld v =
      { now := s.now, deps := s.deps.set fld v,
        timers := [{ id := s.nextId, due := s.now + 250, closure := s.deps.set fld v }],
        nextId := s.nextId + 1, cleanup := some s.nextId, fetched := s.fetched } := by
  obtain ⟨now, deps, timers, nextId, cleanup, fetched⟩ := s
  obtain ⟨hlen, hid⟩ := hs
  simp only at hv hlen hid
  match timers, hlen, hid with
  | [], _, _ =>
    cases cleanup <;> simp [input, hv, runEffect, runCleanup, setTimeout, clearTimeout]
  | [t], _, hid =>
    have ht : cleanup = some t.id := hid t (List.mem_singleton_self t)
    subst ht
    simp [input, hv, runEffect, runCleanup, setTimeout, clearTimeout]

/-- The cleanup alone, at a change from a state with the invariant, empties the
timer table. -/
theorem cleanup_clears (s : EffectState) (d : Filters) (hs : Inv s) :
    (runCleanup { s with deps := d }).timers = [] := by
  obtain ⟨now, deps, timers, nextId, cleanup, fetched⟩ := s
  obtain ⟨hlen, hid⟩ := hs
  simp only at hlen hid
  match timers, hlen, hid with
  | [], _, _ => cases cleanup <;> simp [runCleanup, clearTimeout]
  | [t], _, hid =>
    have ht : cleanup = some t.id := hid t (List.mem_singleton_self t)
    subst ht
    simp [runCleanup, clearTimeout]

/-- A pause with no timer active only moves the clock. -/
theorem elapse_idle (s : EffectState) (ms : Nat) (h : s.timers = []) :
    elapse s ms = { s with now := s.now + ms } := by
  simp [elapse, h]

/-- A pause that ends before the one active timer is due only moves the clock. -/
theorem elapse_early (s : EffectState) (ms : Nat) (t : Timer) (h : s.timers = [t])
    (hd : s.now + ms < t.due) : elapse s ms = { s with now := s.now + ms } := by
  have : ¬ t.due ≤ s.now + ms := by omega
  simp [elapse, h, this]

/-- A pause that reaches the due time of the one active timer: it expires, and
the request of its render is issued at its due time. -/
theorem elapse_due (s : EffectState) (ms : Nat) (t : Timer) (h : s.timers = [t])
    (hd : t.due ≤ s.now + ms) :
    elapse s ms = { s with now := s.now + ms, timers := [],
                           fetched := s.fetched ++ [(t.due, t.closure)] } := by
  simp [elapse, h, hd, fire]

/-- Every step keeps the invariant. -/
theorem inv_step (s : EffectState) (e : Event) (hs : Inv s) : Inv (step s e) := by
  cases e with
  | input fld v =>
    by_cases hv : s.deps.set fld v = s.deps
    · simpa [step, input, hv] using hs
    · simp only [step]
      rw [input_change s fld v hs hv]
      simp [Inv]
  | elapse ms =>
    simp only [step]
    obtain ⟨hlen, hid⟩ := hs
    match ht : s.timers, hlen, hid with
    | [], _, _ =>
      rw [elapse_idle s ms ht]
      simp [Inv, ht]
    | [t], _, hid =>
      by_cases hd : t.due ≤ s.now + ms
      · rw [elapse_due s ms t ht hd]
        simp [Inv]
      · rw [elapse_early s ms t ht (by omega)]
        simpa [Inv, ht] using hid

/-- The invariant holds after any sequence of events. -/
theorem inv_run (es : List Event) (s : EffectState) (hs : Inv s) : Inv (run s es) := by
  induction es generalizing s with
  | nil => exact hs
  | cons e es ih => exact ih (step s e) (inv_step s e hs)

/-- The invariant holds in every reachable state. -/
theorem inv_reachable (s : EffectState) (h : Reachable s) : Inv s := by
  obtain ⟨es, rfl⟩ := h
  exact inv_run es mount inv_mount

/-- A burst from a state with the invariant: one request more, issued 250 ms
after the last change with the cells as that change left them. -/
theorem burst_from_inv (cs : List (Field × String × Nat)) (s : EffectState) (hs : Inv s)
    (fld : Field) (v : String) (D : Nat)
    (hgap : ∀ c ∈ cs, c.2.2 < 250) (hD : 250 ≤ D)
    (hch : AllChange s.deps (cs ++ [(fld, v, D)])) :
    (run s (burstEvents (cs ++ [(fld, v, D)]))).fetched
      = s.fetched ++ [(s.now + totalPause cs + 250, setAll s.deps (cs ++ [(fld, v, D)]))] ∧
    (run s (burstEvents (cs ++ [(fld, v, D)]))).timers = [] := by
  induction cs generalizing s with
  | nil =>
    have hv : s.deps.set fld v ≠ s.deps := hch.1
    simp only [List.nil_append, burstEvents, run, List.foldl, step, totalPause, List.map_nil,
      List.sum_nil, Nat.add_zero, setAll]
    rw [input_change s fld v hs hv, elapse_due _ D _ rfl (by simp; omega)]
    simp
  | cons c cs ih =>
    obtain ⟨f0, v0, d0⟩ := c
    have hv : s.deps.set f0 v0 ≠ s.deps := hch.1
    have hd0 : d0 < 250 := hgap (f0, v0, d0) (List.mem_cons_self _ _)
    have hstep : elapse (input s f0 v0) d0 =
        { now := s.now + d0, deps := s.deps.set f0 v0,
          timers := [{ id := s.nextId, due := s.now + 250, closure := s.deps.set f0 v0 }],
          nextId := s.nextId + 1, cleanup := some s.nextId, fetched := s.fetched } := by
      rw [input_change s f0 v0 hs hv, elapse_early _ d0 _ rfl (by simp; omega)]
    have hinv : Inv (elapse (input s f0 v0) d0) := by
      rw [hstep]
      simp [Inv]
    have h := ih (elapse (input s f0 v0) d0) hinv
      (fun c hc => hgap c (List.mem_cons_of_mem _ hc)) (by rw [hstep]; exact hch.2)
    simp only [List.cons_append, burstEvents, run, List.foldl, step, setAll]
    simp only [run] at h
    rw [hstep] at h ⊢
    simp only [totalPause, List.map_cons, List.sum_cons, List.append_eq] at h ⊢
    refine ⟨?_, h.2⟩
    rw [h.1]
    simp [Nat.add_assoc]

/-- C9: in the step relation of the timer of `App`, every reachable state has
at most one scheduled fetch pending; a filter change from a reachable state
first clears the pending timer (the table is empty after the cleanup) and then
installs its own, due 250 ms later with the cells as changed; and a burst of
filter changes with pauses under 250 ms between them, followed by 250 ms or more
without a change, adds exactly one list request to those issued before, at 250 ms
after the last change and with the cells as that change left them, and leaves no
timer pending. -/
theorem debounce_spec :
    (∀ s : EffectState, Reachable s → s.timers.length ≤ 1) ∧
    (∀ (s : EffectState) (fld : Field) (v : String), Reachable s → s.deps.set fld v ≠ s.deps →
      (runCleanup { s with deps := s.deps.set fld v }).timers = [] ∧
      (input s fld v).timers
        = [{ id := s.nextId, due := s.now + 250, closure := s.deps.set fld v }]) ∧
    (∀ (s : EffectState) (cs : List (Field × String × Nat)) (fld : Field) (v : String) (D : Nat),
      Reachable s → (∀ c ∈ cs, c.2.2 < 250) → 250 ≤ D →
      AllChange s.deps (cs ++ [(fld, v, D)]) →
      (run s (burstEvents (cs ++ [(fld, v, D)]))).fetched
        = s.fetched ++ [(s.now + totalPause cs + 250, setAll s.deps (cs ++ [(fld, v, D)]))] ∧
      (run s (burstEvents (cs ++ [(fld, v, D)]))).timers = []) := by
  refine ⟨fun s h => (inv_reachable s h).1, fun s fld v h hv => ?_, ?_⟩
  · refine ⟨cleanup_clears s _ (inv_reachable s h), ?_⟩
    rw [input_change s fld v (inv_reachable s h) hv]
  · intro s cs fld v D h hgap hD hch
    exact burst_from_inv cs s (inv_reachable s h) fld v D hgap hD hch

/-- C9 on a run from the mount: "a" typed into the search box, "ab" 100 ms
later, then 250 ms of quiet. One request is added to the one of the mount, at
350 ms, with search "ab". -/
theorem debounce_spec_witness :
    (Reachable mount ∧ (∀ c ∈ [(Field.search, "a", 100)], c.2.2 < 250) ∧ 250 ≤ 250 ∧
      AllChange mount.deps ([(Field.search, "a", 100)] ++ [(Field.search, "ab", 250)])) ∧
    (run mount (burstEvents ([(Field.search, "a", 100)] ++ [(Field.search, "ab", 250)]))).fetched
      = [(0, Filters.initial), (350, { Filters.initial with search := "ab" })] :=
  ⟨⟨⟨[], rfl⟩, by decide, by decide, by decide⟩,
   (debounce_spec.2.2 mount [(Field.search, "a", 100)] Field.search "ab" 250 ⟨[], rfl⟩
      (by decide) (by decide) (by decide)).1⟩

end QuickContacts
